import Mathlib

/-!
Verification of the session-scoped execution and error-recovery subsystem of
the amazon-q-cli-mcp-server repository (a TypeScript MCP server wrapping the
Amazon Q CLI).  The definitions below are a shallow embedding of the relevant
functions of `src/server.ts` (the enhanced variant, the one with session
directories and error recovery), `src/session-logger.ts` and
`src/constants.ts`.  Machine-level details that do not affect the verified
properties (actual filesystem calls, child-process spawning, wall-clock time)
are modelled by explicit parameters and event traces.
-/

namespace AmazonQMcp

/-- JavaScript `String.prototype.includes`: substring test used throughout
`classifyError`. -/
def strContains (s pat : String) : Bool :=
  decide (pat.data <:+: s.data)

/-- The `ErrorType` enum of `src/server.ts`. -/
inductive ErrorType where
  | NETWORK_ERROR
  | AUTHENTICATION_ERROR
  | SERVICE_CAPACITY_ERROR
  | CONFIGURATION_ERROR
  | VALIDATION_ERROR
  | Q_CLI_NOT_FOUND
  | UNKNOWN_ERROR
deriving DecidableEq, Repr

/-- The `ErrorGuidance` interface of `src/server.ts`. -/
structure ErrorGuidance where
  message : String
  actions : List String
  retryable : Bool
deriving DecidableEq, Repr

/-- The `MCPError` class of `src/server.ts` (field order as in its
constructor). -/
structure MCPError where
  type : ErrorType
  code : String
  message : String
  retryable : Bool
  guidance : Option ErrorGuidance
deriving DecidableEq, Repr

/-- A raw failure as consumed by `classifyError`: an error value with a
`message` and an optional `stderr` property (absent stderr is the empty
string, matching `error?.stderr || ''` in the source). -/
structure RawError where
  message : String
  stderr : String
deriving DecidableEq, Repr

/-- The `errorGuidanceMap` built by `initializeErrorGuidance` in
`src/server.ts` (lines 869-930).  `Map.get` returns `undefined` for the key
`UNKNOWN_ERROR`, which is never inserted; this is the `none` case. -/
def errorGuidanceMap : ErrorType → Option ErrorGuidance
  | .AUTHENTICATION_ERROR => some
      { message := "Authentication failed with Amazon Q CLI"
        actions :=
          ["Run 'q status' to check authentication status",
           "Try 'q login' to re-authenticate",
           "Verify AWS credentials are properly configured",
           "Check if you have the necessary Amazon Q permissions"]
        retryable := false }
  | .SERVICE_CAPACITY_ERROR => some
      { message := "Amazon Q service is experiencing high demand"
        actions :=
          ["Wait a few moments and try again",
           "The service will automatically retry with exponential backoff",
           "Consider trying during off-peak hours"]
        retryable := true }
  | .NETWORK_ERROR => some
      { message := "Network connection issue"
        actions :=
          ["Check your internet connection",
           "Verify proxy settings if applicable",
           "Check SSL certificate configuration",
           "Try connecting from a different network"]
        retryable := true }
  | .Q_CLI_NOT_FOUND => some
      { message := "Amazon Q CLI not found or not accessible"
        actions :=
          ["Install Amazon Q CLI from AWS documentation",
           "Ensure 'q' command is in your PATH",
           "Run 'which q' to verify installation",
           "Check file permissions on Q CLI executable"]
        retryable := false }
  | .CONFIGURATION_ERROR => some
      { message := "Configuration issue detected"
        actions :=
          ["Run 'q doctor' to diagnose configuration issues",
           "Check ~/.aws/config and ~/.aws/credentials files",
           "Verify AWS region is properly set",
           "Validate JSON syntax in configuration files"]
        retryable := false }
  | .VALIDATION_ERROR => some
      { message := "Invalid parameters provided"
        actions :=
          ["Check the parameters passed to the tool",
           "Refer to tool documentation for valid parameter formats",
           "Ensure required parameters are provided"]
        retryable := false }
  | .UNKNOWN_ERROR => none

/-- The inline guidance object constructed in the default (`UNKNOWN_ERROR`)
branch of `classifyError`. -/
def unknownGuidance : ErrorGuidance :=
  { message := "An unexpected error occurred"
    actions :=
      ["Check the error details for more information",
       "Try running the command again",
       "Contact support if the issue persists"]
    retryable := false }

/-- `classifyError` of `src/server.ts` (lines 932-1021): ordered substring
matching over the raw error's message and stderr.  The `context` argument is
kept for fidelity with the source signature; the source never reads it. -/
def classifyError (error : RawError) (_context : String) : MCPError :=
  let errorMessage := error.message
  let stderr := error.stderr
  if strContains errorMessage "AccessDeniedException"
      || strContains errorMessage "UnauthorizedOperation"
      || strContains errorMessage "authentication"
      || strContains stderr "login required" then
    { type := .AUTHENTICATION_ERROR, code := "AUTH_FAILED", message := errorMessage
      retryable := false, guidance := errorGuidanceMap .AUTHENTICATION_ERROR }
  else if strContains errorMessage "trouble responding right now"
      || strContains errorMessage "capacity"
      || strContains errorMessage "rate limit"
      || strContains errorMessage "throttle" then
    { type := .SERVICE_CAPACITY_ERROR, code := "SERVICE_OVERLOAD", message := errorMessage
      retryable := true, guidance := errorGuidanceMap .SERVICE_CAPACITY_ERROR }
  else if strContains errorMessage "ECONNREFUSED"
      || strContains errorMessage "ETIMEDOUT"
      || strContains errorMessage "ENOTFOUND"
      || strContains errorMessage "SSL"
      || strContains errorMessage "certificate" then
    { type := .NETWORK_ERROR, code := "NETWORK_FAILED", message := errorMessage
      retryable := true, guidance := errorGuidanceMap .NETWORK_ERROR }
  else if strContains errorMessage "Failed to execute Q CLI"
      || strContains errorMessage "ENOENT"
      || strContains errorMessage "command not found" then
    { type := .Q_CLI_NOT_FOUND, code := "Q_CLI_MISSING", message := errorMessage
      retryable := false, guidance := errorGuidanceMap .Q_CLI_NOT_FOUND }
  else if strContains errorMessage "configuration"
      || strContains errorMessage "config"
      || strContains stderr "doctor" then
    { type := .CONFIGURATION_ERROR, code := "CONFIG_ERROR", message := errorMessage
      retryable := false, guidance := errorGuidanceMap .CONFIGURATION_ERROR }
  else
    { type := .UNKNOWN_ERROR, code := "UNKNOWN", message := errorMessage
      retryable := false, guidance := some unknownGuidance }

/-! ### Session directory resolution (`getSessionDirectory`, server.ts 837-848)

`getSessionDirectory` computes
`path.join(os.homedir(), '.amazon-q-mcp', 'sessions', effectiveSessionId)` and
creates that directory.  Paths are modelled as lists of POSIX path segments
relative to the filesystem root; Node's `path.join` on an absolute base
concatenates the components and normalizes the result (`.` and empty segments
vanish, `..` pops one segment, and `..` above the root stays at the root).
The `mkdirSync` side effect plays no role in the resolution property and is
not modelled. -/

/-- One segment step of Node `path.normalize` over an absolute path. -/
def normStep (acc : List String) (seg : String) : List String :=
  if seg = "" || seg = "." then acc
  else if seg = ".." then acc.dropLast
  else acc ++ [seg]

/-- Split a character list on the POSIX separator `/`, keeping empty pieces
(the same segmentation `path.join`/`path.normalize` work with). -/
def splitSegsAux : List Char → List Char → List String
  | [], acc => [String.mk acc.reverse]
  | c :: rest, acc =>
      if c = '/' then String.mk acc.reverse :: splitSegsAux rest []
      else splitSegsAux rest (c :: acc)

/-- Segments of one path component. -/
def splitSegs (component : String) : List String :=
  splitSegsAux component.data []

/-- Node `path.join` of an already-normalized absolute base with one further
component: the component is split on separators and normalized against the
base segments. -/
def joinSegments (base : List String) (component : String) : List String :=
  (splitSegs component).foldl normStep base

/-- The fixed session root `path.join(os.homedir(), '.amazon-q-mcp',
'sessions')`, as segments below the filesystem root. -/
def sessionsRoot (homedir : List String) : List String :=
  homedir ++ [".amazon-q-mcp", "sessions"]

/-- `getSessionDirectory` of `src/server.ts` (lines 837-848): defaulting of
the session id (JS `sessionId || 'default'` treats both `undefined` and the
empty string as absent) followed by the path join.  The source applies no
sanitization whatsoever to `effectiveSessionId`. -/
def getSessionDirectory (homedir : List String) (sessionId : Option String) :
    List String :=
  let effectiveSessionId :=
    match sessionId with
    | none => "default"
    | some s => if s = "" then "default" else s
  joinSegments (sessionsRoot homedir) effectiveSessionId

/-- C1: the claim says every `sessionId` containing traversal sequences still
resolves strictly inside the session root because the identifier is sanitized
first.  The code performs no sanitization: for the concrete home directory
`/home/user` and `sessionId = "../../../etc"`, the resolved directory is
`/home/etc`, which does not have the session root
`/home/user/.amazon-q-mcp/sessions` as a prefix.  This contradicts the
repository's own README ("Session IDs are sanitized to prevent path
traversal"), so the code, not the claim, is at fault. -/
theorem getSessionDirectory_escapes_root :
    getSessionDirectory ["home", "user"] (some "../../../etc") = ["home", "etc"]
      ∧ ¬ sessionsRoot ["home", "user"] <+:
          getSessionDirectory ["home", "user"] (some "../../../etc") := by
  decide

/-! ### Command executor (`executeQCommandWithInputInDirectory`, server.ts 1513-1548)

The executor spawns `q` with the given args in the session working directory,
writes the input to stdin, accumulates stdout/stderr chunks as they arrive,
and settles its promise at the first `error` or `close` event.  It is
modelled as a fold over the ordered trace of child-process events; `none`
means the promise never settles (the source installs no timer, so nothing
else can settle it).  The rejection errors constructed by the source are
plain `Error` objects carrying only a message (no `stderr` property, hence
`stderr := ""` after `error?.stderr || ''`). -/

/-- Events emitted by the spawned child process, in arrival order. -/
inductive ChildEvent where
  | stdoutData (chunk : String)
  | stderrData (chunk : String)
  | errored (message : String)
  | closed (code : Int)
deriving DecidableEq, Repr

/-- Whether an event settles the executor's promise (the `error` and `close`
handlers are the only ones that call `resolve`/`reject`). -/
def ChildEvent.isTerminal : ChildEvent → Bool
  | .errored _ => true
  | .closed _ => true
  | .stdoutData _ => false
  | .stderrData _ => false

/-- Accumulating loop of the executor over the event trace. -/
def execAux (stdoutAcc stderrAcc : String) :
    List ChildEvent → Option (Except RawError (String × String))
  | [] => none
  | .stdoutData c :: rest => execAux (stdoutAcc ++ c) stderrAcc rest
  | .stderrData c :: rest => execAux stdoutAcc (stderrAcc ++ c) rest
  | .errored m :: _ =>
      some (.error { message := "Failed to execute Q CLI: " ++ m, stderr := "" })
  | .closed code :: _ =>
      if code = 0 then some (.ok (stdoutAcc, stderrAcc))
      else some (.error
        { message := "Q CLI exited with code " ++ toString code ++ ": " ++ stderrAcc
          stderr := "" })

/-- `executeQCommandWithInputInDirectory` of `src/server.ts` (lines
1513-1548), as a function of the child-process event trace.  `args`, `input`
and `workingDir` are kept for fidelity with the source signature; they only
parameterize the spawn and do not influence how the promise settles. -/
def executeQCommandWithInputInDirectory (_args : List String) (_input : String)
    (_workingDir : List String) (events : List ChildEvent) :
    Option (Except RawError (String × String)) :=
  execAux "" "" events

/-- `CONFIG.COMMAND_TIMEOUT_MS` default from `src/constants.ts` line 21
(environment override not modelled).  No executor in `src/server.ts` ever
reads this constant. -/
def CONFIG_COMMAND_TIMEOUT_MS : Nat := 30000

/-- `CONFIG.MAX_OUTPUT_SIZE_BYTES` default from `src/constants.ts` line 24
(environment override not modelled).  No executor in `src/server.ts` ever
reads this constant. -/
def CONFIG_MAX_OUTPUT_SIZE_BYTES : Nat := 1048576

theorem execAux_none_of_no_terminal (events : List ChildEvent)
    (h : ∀ e ∈ events, e.isTerminal = false) :
    ∀ sa sb, execAux sa sb events = none := by
  induction events with
  | nil => intro sa sb; rfl
  | cons ev rest ih =>
      intro sa sb
      have hev : ev.isTerminal = false := h ev (List.mem_cons_self ev rest)
      have hrest : ∀ e ∈ rest, e.isTerminal = false :=
        fun e he => h e (List.mem_cons_of_mem ev he)
      cases ev with
      | stdoutData c => exact ih hrest _ _
      | stderrData c => exact ih hrest _ _
      | errored m => simp [ChildEvent.isTerminal] at hev
      | closed code => simp [ChildEvent.isTerminal] at hev

/-- C2: the claim says a child process that does not exit within
`CONFIG.COMMAND_TIMEOUT_MS` is forcibly terminated and the failure classified
as a Network-style retryable error.  The source contains no timeout at all:
the executor's promise settles only on a `close` or `error` event, so on any
trace without one — a hung child — the call never resolves or rejects, no
matter how much time passes.  `CONFIG.COMMAND_TIMEOUT_MS` (default 30000) is
defined in `constants.ts` but never referenced by the executor. -/
theorem executeQCommand_hangs_without_close (args : List String) (input : String)
    (workingDir : List String) (events : List ChildEvent)
    (h : ∀ e ∈ events, e.isTerminal = false) :
    executeQCommandWithInputInDirectory args input workingDir events = none :=
  execAux_none_of_no_terminal events h "" ""

theorem executeQCommand_hangs_without_close_witness :
    (∀ e ∈ [ChildEvent.stdoutData "thinking..."], e.isTerminal = false) ∧
      executeQCommandWithInputInDirectory ["chat", "--resume", "--no-interactive"]
        "hello" ["home", "user", ".amazon-q-mcp", "sessions", "default"]
        [ChildEvent.stdoutData "thinking..."] = none :=
  ⟨by decide,
   executeQCommand_hangs_without_close ["chat", "--resume", "--no-interactive"]
     "hello" ["home", "user", ".amazon-q-mcp", "sessions", "default"]
     [ChildEvent.stdoutData "thinking..."] (by decide)⟩

/-- C3: the claim says the stdout returned on exit code zero is truncated at
`CONFIG.MAX_OUTPUT_SIZE_BYTES`.  The source resolves with the full
accumulated stdout and never consults that constant: for every chunk `s` the
executor returns `s` verbatim, and in particular a chunk one byte over the
configured maximum (the second conjunct exhibits its length) is returned in
full rather than truncated. -/
theorem executeQCommand_returns_untruncated_stdout :
    (∀ (args : List String) (input : String) (workingDir : List String)
        (s : String),
      executeQCommandWithInputInDirectory args input workingDir
        [ChildEvent.stdoutData s, ChildEvent.closed 0] = some (.ok (s, "")))
      ∧ (String.mk (List.replicate (CONFIG_MAX_OUTPUT_SIZE_BYTES + 1) 'a')).length
          = CONFIG_MAX_OUTPUT_SIZE_BYTES + 1 := by
  constructor
  · intro args input workingDir s
    cases s
    rfl
  · show (List.replicate (CONFIG_MAX_OUTPUT_SIZE_BYTES + 1) 'a').length = _
    simp

/-! ### Retry coordinator (`executeWithRetry`, server.ts 1023-1064)

`executeWithRetry` runs the operation in a `for` loop over attempts
`1..maxRetries`.  On failure it classifies the error; if the classification
is not retryable or the attempt was the last one it throws the classified
error, otherwise it sleeps `min(500 * 2^(attempt-1), 10000) +
Math.random() * 0.25 * delay` milliseconds and continues.  The operation is
modelled as a function from the (1-based) attempt number to that attempt's
outcome, and `Math.random()` as an externally supplied sequence of rationals
in `[0, 1)`.  The trace records the terminal result, the number of attempts
performed, and the list of backoff delays actually slept. -/

/-- Terminal result of `executeWithRetry`.  `noAttempts` is the `maxRetries =
0` case: the loop body never runs and the source falls through to `throw
lastError` with `lastError` still undefined (dead code for every real call
site, which all use the default of 3). -/
inductive RetryOutcome (α : Type) where
  | ok (val : α)
  | err (e : MCPError)
  | noAttempts
deriving Repr

/-- Everything observable about one run of `executeWithRetry`. -/
structure RetryTrace (α : Type) where
  result : RetryOutcome α
  attempts : Nat
  delays : List ℚ
deriving Repr

/-- The backoff delay slept after a failed attempt, from server.ts 1051-1056:
`delay = min(baseDelay * 2^(attempt-1), maxDelay)` with `baseDelay = 500`,
`maxDelay = 10000`, plus `jitter = r * 0.25 * delay` for the random draw
`r`. -/
def delayFor (attempt : Nat) (r : ℚ) : ℚ :=
  let baseDelay : ℚ := 500
  let maxDelay : ℚ := 10000
  let delay := min (baseDelay * 2 ^ (attempt - 1)) maxDelay
  let jitter := r * (1 / 4) * delay
  delay + jitter

/-- The loop of `executeWithRetry`, by recursion on the remaining number of
attempts (`fuel`); `attempt` is the current 1-based attempt index, so a call
with `attempt = 1` and `fuel = maxRetries` runs the source loop. -/
def executeWithRetryAux (op : Nat → Except RawError α) (rand : Nat → ℚ)
    (context : String) (maxRetries : Nat) : Nat → Nat → RetryTrace α
  | _, 0 => ⟨.noAttempts, 0, []⟩
  | attempt, fuel + 1 =>
      match op attempt with
      | .ok v => ⟨.ok v, 1, []⟩
      | .error e =>
          let classifiedError := classifyError e context
          if !classifiedError.retryable || attempt == maxRetries then
            ⟨.err classifiedError, 1, []⟩
          else
            let t := executeWithRetryAux op rand context maxRetries (attempt + 1) fuel
            ⟨t.result, t.attempts + 1, delayFor attempt (rand attempt) :: t.delays⟩

/-- `executeWithRetry` of `src/server.ts` (lines 1023-1064). -/
def executeWithRetry (op : Nat → Except RawError α) (rand : Nat → ℚ)
    (context : String) (maxRetries : Nat) : RetryTrace α :=
  executeWithRetryAux op rand context maxRetries 1 maxRetries

/-- The default `maxRetries = 3` of `executeWithRetry`; every call site in
`src/server.ts` uses it. -/
def defaultMaxRetries : Nat := 3

theorem executeWithRetryAux_eq_ok {α : Type} {op : Nat → Except RawError α}
    {rand : Nat → ℚ} {context : String} {maxRetries attempt fuel : Nat}
    {v : α} (h : op attempt = .ok v) :
    executeWithRetryAux op rand context maxRetries attempt (fuel + 1)
      = ⟨.ok v, 1, []⟩ := by
  unfold executeWithRetryAux
  rw [h]

theorem executeWithRetryAux_eq_stop {α : Type} {op : Nat → Except RawError α}
    {rand : Nat → ℚ} {context : String} {maxRetries attempt fuel : Nat}
    {e : RawError} (h : op attempt = .error e)
    (hc : (!(classifyError e context).retryable || attempt == maxRetries) = true) :
    executeWithRetryAux op rand context maxRetries attempt (fuel + 1)
      = ⟨.err (classifyError e context), 1, []⟩ := by
  unfold executeWithRetryAux
  rw [h]
  simp only [hc, if_true]

theorem executeWithRetryAux_eq_cont {α : Type} {op : Nat → Except RawError α}
    {rand : Nat → ℚ} {context : String} {maxRetries attempt fuel : Nat}
    {e : RawError} (h : op attempt = .error e)
    (hc : (!(classifyError e context).retryable || attempt == maxRetries) = false) :
    executeWithRetryAux op rand context maxRetries attempt (fuel + 1)
      = ⟨(executeWithRetryAux op rand context maxRetries (attempt + 1) fuel).result,
         (executeWithRetryAux op rand context maxRetries (attempt + 1) fuel).attempts + 1,
         delayFor attempt (rand attempt)
           :: (executeWithRetryAux op rand context maxRetries (attempt + 1) fuel).delays⟩ := by
  conv_lhs => rw [executeWithRetryAux]
  rw [h]
  simp only [hc, Bool.false_eq_true, if_false]

theorem executeWithRetryAux_attempts_le (op : Nat → Except RawError α)
    (rand : Nat → ℚ) (context : String) (maxRetries : Nat) :
    ∀ fuel attempt,
      (executeWithRetryAux op rand context maxRetries attempt fuel).attempts ≤ fuel := by
  intro fuel
  induction fuel with
  | zero => intro attempt; exact Nat.le_refl 0
  | succ n ih =>
      intro attempt
      cases hopA : op attempt with
      | ok v => rw [executeWithRetryAux_eq_ok hopA]; exact Nat.le_add_left 1 n
      | error e =>
          by_cases hc : (!(classifyError e context).retryable
              || attempt == maxRetries) = true
          · rw [executeWithRetryAux_eq_stop hopA hc]
            exact Nat.le_add_left 1 n
          · rw [executeWithRetryAux_eq_cont hopA (Bool.eq_false_iff.mpr hc)]
            exact Nat.succ_le_succ (ih (attempt + 1))

theorem executeWithRetryAux_stops_on_nonretryable (op : Nat → Except RawError α)
    (rand : Nat → ℚ) (context : String) (maxRetries : Nat) :
    ∀ fuel attempt j e, attempt ≤ j →
      j < attempt + (executeWithRetryAux op rand context maxRetries attempt fuel).attempts →
      op j = .error e → (classifyError e context).retryable = false →
      attempt + (executeWithRetryAux op rand context maxRetries attempt fuel).attempts
        = j + 1 := by
  intro fuel
  induction fuel with
  | zero =>
      intro attempt j e hle hlt _ _
      simp only [executeWithRetryAux] at hlt
      omega
  | succ n ih =>
      intro attempt j e hle hlt hop hret
      cases hopA : op attempt with
      | ok v =>
          rw [executeWithRetryAux_eq_ok hopA] at hlt ⊢
          dsimp only at hlt ⊢
          have hj : j = attempt := by omega
          rw [hj, hopA] at hop
          exact Except.noConfusion hop
      | error e0 =>
          by_cases hc : (!(classifyError e0 context).retryable
              || attempt == maxRetries) = true
          · rw [executeWithRetryAux_eq_stop hopA hc] at hlt ⊢
            dsimp only at hlt ⊢
            omega
          · have hcf := Bool.eq_false_iff.mpr hc
            rw [executeWithRetryAux_eq_cont hopA hcf] at hlt ⊢
            dsimp only at hlt ⊢
            rcases Nat.lt_or_ge attempt j with hgt | hge
            · have := ih (attempt + 1) j e (by omega) (by omega) hop hret
              omega
            · have hj : j = attempt := by omega
              rw [hj, hopA] at hop
              have he : e0 = e := by injection hop
              subst he
              simp [hret] at hcf

/-- C5: `executeWithRetry` performs at most `maxRetries` attempts, and once
any performed attempt `j` fails with an error whose classification is not
retryable, attempt `j` is the last one — even when `j = 1`. -/
theorem executeWithRetry_bounded_attempts (op : Nat → Except RawError α)
    (rand : Nat → ℚ) (context : String) (maxRetries : Nat) :
    (executeWithRetry op rand context maxRetries).attempts ≤ maxRetries ∧
    ∀ j e, 1 ≤ j → j ≤ (executeWithRetry op rand context maxRetries).attempts →
      op j = .error e → (classifyError e context).retryable = false →
      (executeWithRetry op rand context maxRetries).attempts = j := by
  unfold executeWithRetry
  constructor
  · exact executeWithRetryAux_attempts_le op rand context maxRetries maxRetries 1
  · intro j e h1 hj hop hret
    have := executeWithRetryAux_stops_on_nonretryable op rand context maxRetries
      maxRetries 1 j e h1 (by omega) hop hret
    omega

/-- A raw error whose message matches the `Q_CLI_NOT_FOUND` patterns of
`classifyError` (non-retryable). -/
def enoentError : RawError := { message := "ENOENT", stderr := "" }

/-- A raw error whose message matches the `SERVICE_CAPACITY_ERROR` patterns
of `classifyError` (retryable). -/
def rateLimitError : RawError := { message := "rate limit", stderr := "" }

/-- An operation that fails on every attempt with a non-retryable error. -/
def opEnoent : Nat → Except RawError Nat := fun _ => .error enoentError

/-- An operation that fails on every attempt with a retryable error. -/
def opRateLimit : Nat → Except RawError Nat := fun _ => .error rateLimitError

/-- A degenerate random sequence (`Math.random()` always drawing 0). -/
def randZero : Nat → ℚ := fun _ => 0

theorem executeWithRetry_bounded_attempts_witness :
    ((1 : Nat) ≤ 1
      ∧ 1 ≤ (executeWithRetry opEnoent randZero "ask_q" defaultMaxRetries).attempts
      ∧ opEnoent 1 = .error enoentError
      ∧ (classifyError enoentError "ask_q").retryable = false)
    ∧ (executeWithRetry opEnoent randZero "ask_q" defaultMaxRetries).attempts
        ≤ defaultMaxRetries
    ∧ (executeWithRetry opEnoent randZero "ask_q" defaultMaxRetries).attempts = 1 :=
  ⟨⟨Nat.le_refl 1, by decide, rfl, by decide⟩,
   (executeWithRetry_bounded_attempts opEnoent randZero "ask_q" defaultMaxRetries).1,
   (executeWithRetry_bounded_attempts opEnoent randZero "ask_q" defaultMaxRetries).2
     1 enoentError (Nat.le_refl 1) (by decide) rfl (by decide)⟩

theorem executeWithRetryAux_delays (op : Nat → Except RawError α)
    (rand : Nat → ℚ) (context : String) (maxRetries : Nat) :
    ∀ fuel attempt, attempt + fuel = maxRetries + 1 →
      ∀ i d, (executeWithRetryAux op rand context maxRetries attempt fuel).delays.get? i
          = some d →
        d = delayFor (attempt + i) (rand (attempt + i)) ∧ attempt + i < maxRetries := by
  intro fuel
  induction fuel with
  | zero =>
      intro attempt hinv i d hd
      simp [executeWithRetryAux] at hd
  | succ n ih =>
      intro attempt hinv i d hd
      cases hopA : op attempt with
      | ok v =>
          rw [executeWithRetryAux_eq_ok hopA] at hd
          simp at hd
      | error e =>
          by_cases hc : (!(classifyError e context).retryable
              || attempt == maxRetries) = true
          · rw [executeWithRetryAux_eq_stop hopA hc] at hd
            simp at hd
          · have hcf := Bool.eq_false_iff.mpr hc
            rw [executeWithRetryAux_eq_cont hopA hcf] at hd
            dsimp only at hd
            have hne : attempt ≠ maxRetries := by
              rcases Bool.or_eq_false_iff.mp hcf with ⟨_, h2⟩
              simpa using h2
            cases i with
            | zero =>
                have hvd : delayFor attempt (rand attempt) = d := by
                  simpa using hd
                refine ⟨by simpa using hvd.symm, by omega⟩
            | succ i2 =>
                have hd2 : (executeWithRetryAux op rand context maxRetries
                    (attempt + 1) n).delays.get? i2 = some d := by
                  simpa using hd
                obtain ⟨hdd, hlt⟩ := ih (attempt + 1) (by omega) i2 d hd2
                have harg : attempt + 1 + i2 = attempt + (i2 + 1) := by omega
                rw [harg] at hdd hlt
                exact ⟨hdd, hlt⟩

/-- C6: with the default `maxRetries = 3` (used at every call site), every
backoff delay recorded between attempt `k` and attempt `k + 1` (the entry at
index `i = k - 1` of the delay trace) lies in the closed interval
`[500 * 2^(k-1), 500 * 2^(k-1) * 1.25]` and never exceeds `10000 * 1.25`,
provided each random draw lies in `[0, 1)` as `Math.random()` guarantees. -/
theorem executeWithRetry_backoff_bounds (op : Nat → Except RawError α)
    (rand : Nat → ℚ) (context : String)
    (hr : ∀ n, 0 ≤ rand n ∧ rand n < 1) :
    ∀ i d, (executeWithRetry op rand context defaultMaxRetries).delays.get? i = some d →
      500 * 2 ^ i ≤ d ∧ d ≤ 500 * 2 ^ i * (5 / 4) ∧ d ≤ 10000 * (5 / 4) := by
  intro i d hd
  unfold executeWithRetry at hd
  obtain ⟨hdd, hlt⟩ := executeWithRetryAux_delays op rand context defaultMaxRetries
    defaultMaxRetries 1 (by decide) i d hd
  subst hdd
  have hi2 : i < 2 := by
    have h3 : (1 : Nat) + i < defaultMaxRetries := hlt
    simp only [defaultMaxRetries] at h3
    omega
  obtain ⟨hr0, hr1⟩ := hr (1 + i)
  unfold delayFor
  have hsub : 1 + i - 1 = i := by omega
  rw [hsub]
  interval_cases i <;>
    · norm_num
      refine ⟨by nlinarith, by nlinarith, by nlinarith⟩

theorem executeWithRetry_backoff_bounds_witness :
    ((∀ n, (0 : ℚ) ≤ randZero n ∧ randZero n < 1)
      ∧ (executeWithRetry opRateLimit randZero "ask_q" defaultMaxRetries).delays.get? 0
          = some 500)
    ∧ 500 * 2 ^ 0 ≤ (500 : ℚ) ∧ (500 : ℚ) ≤ 500 * 2 ^ 0 * (5 / 4)
      ∧ (500 : ℚ) ≤ 10000 * (5 / 4) := by
  have hget : (executeWithRetry opRateLimit randZero "ask_q" defaultMaxRetries).delays.get? 0
      = some 500 := by
    unfold executeWithRetry defaultMaxRetries
    rw [executeWithRetryAux_eq_cont (show opRateLimit 1 = .error rateLimitError from rfl)
      (by decide)]
    dsimp only
    norm_num [delayFor, randZero, min_def]
  exact ⟨⟨fun _ => ⟨le_refl 0, by norm_num [randZero]⟩, hget⟩,
    executeWithRetry_backoff_bounds opRateLimit randZero "ask_q"
      (fun _ => ⟨le_refl 0, by norm_num [randZero]⟩) 0 500 hget⟩

/-! ### Spec-side classification table (spec section 4.3)

The spec describes `classify` as ordered pattern matching over a fixed table:
for each category a set of known substrings tested against the raw error's
message and stderr, evaluated in the precedence order Authentication →
ServiceCapacity → Network → ToolMissing → Configuration → Unknown (default),
first match wins, with a fixed retryable flag per category.  The following
definitions transcribe that table from the spec's words, to be compared with
`classifyError` above. -/

/-- Membership test of one category's pattern set (spec glossary patterns). -/
def categoryMatches : ErrorType → RawError → Bool
  | .AUTHENTICATION_ERROR, e =>
      strContains e.message "AccessDeniedException"
        || strContains e.message "UnauthorizedOperation"
        || strContains e.message "authentication"
        || strContains e.stderr "login required"
  | .SERVICE_CAPACITY_ERROR, e =>
      strContains e.message "trouble responding right now"
        || strContains e.message "capacity"
        || strContains e.message "rate limit"
        || strContains e.message "throttle"
  | .NETWORK_ERROR, e =>
      strContains e.message "ECONNREFUSED"
        || strContains e.message "ETIMEDOUT"
        || strContains e.message "ENOTFOUND"
        || strContains e.message "SSL"
        || strContains e.message "certificate"
  | .Q_CLI_NOT_FOUND, e =>
      strContains e.message "Failed to execute Q CLI"
        || strContains e.message "ENOENT"
        || strContains e.message "command not found"
  | .CONFIGURATION_ERROR, e =>
      strContains e.message "configuration"
        || strContains e.message "config"
        || strContains e.stderr "doctor"
  | .VALIDATION_ERROR, _ => false
  | .UNKNOWN_ERROR, _ => false

/-- The spec's precedence order (first match wins). -/
def classifyPrecedence : List ErrorType :=
  [.AUTHENTICATION_ERROR, .SERVICE_CAPACITY_ERROR, .NETWORK_ERROR,
   .Q_CLI_NOT_FOUND, .CONFIGURATION_ERROR]

/-- Spec-side classifier: the first category in precedence order whose
pattern set matches, defaulting to `UNKNOWN_ERROR`. -/
def classifySpec (e : RawError) : ErrorType :=
  (classifyPrecedence.find? (fun t => categoryMatches t e)).getD .UNKNOWN_ERROR

/-- The fixed per-category retryable flag of the spec's taxonomy: only
ServiceCapacity and Network failures are transient/retryable. -/
def specRetryable : ErrorType → Bool
  | .SERVICE_CAPACITY_ERROR => true
  | .NETWORK_ERROR => true
  | _ => false

/-- C4: `classifyError` agrees with the spec's ordered first-match table: the
returned category is the first match in the precedence order Authentication →
ServiceCapacity → Network → ToolMissing → Configuration → Unknown, carrying
that category's fixed retryable flag; and the result is deterministic — it
depends only on the error's message and stderr. -/
theorem classifyError_matches_spec :
    (∀ (e : RawError) (c : String),
        (classifyError e c).type = classifySpec e
          ∧ (classifyError e c).retryable = specRetryable (classifyError e c).type)
    ∧ ∀ (e1 e2 : RawError) (c1 c2 : String),
        e1.message = e2.message → e1.stderr = e2.stderr →
        classifyError e1 c1 = classifyError e2 c2 := by
  constructor
  · intro e c
    simp only [classifyError]
    split_ifs with h1 h2 h3 h4 h5 <;>
      simp_all only [classifySpec, classifyPrecedence, List.find?, categoryMatches,
        specRetryable, Bool.not_eq_true, Option.getD_some, Option.getD_none] <;>
      exact ⟨trivial, trivial⟩
  · intro e1 e2 c1 c2 hm hs
    obtain ⟨m1, s1⟩ := e1
    obtain ⟨m2, s2⟩ := e2
    simp only [RawError.message, RawError.stderr] at hm hs
    subst hm
    subst hs
    rfl

theorem classifyError_matches_spec_witness :
    (rateLimitError.message = rateLimitError.message
      ∧ rateLimitError.stderr = rateLimitError.stderr)
    ∧ ((classifyError rateLimitError "ask_q").type = classifySpec rateLimitError
        ∧ (classifyError rateLimitError "ask_q").retryable
            = specRetryable (classifyError rateLimitError "ask_q").type)
    ∧ classifyError rateLimitError "ask_q" = classifyError rateLimitError "q_translate" :=
  ⟨⟨rfl, rfl⟩, classifyError_matches_spec.1 rateLimitError "ask_q",
   classifyError_matches_spec.2 rateLimitError rateLimitError "ask_q" "q_translate" rfl rfl⟩

/-- C9: every `MCPError` produced by `classifyError` satisfies the invariant
that its retryable flag is true exactly for the ServiceCapacity and Network
categories, its guidance is always populated with a non-empty action list,
and the guidance's own retryable flag agrees with the error's. -/
theorem classifyError_guidance_invariant (e : RawError) (c : String) :
    (classifyError e c).retryable
        = ((classifyError e c).type == .SERVICE_CAPACITY_ERROR
            || (classifyError e c).type == .NETWORK_ERROR)
      ∧ Option.elim (classifyError e c).guidance False
          (fun g => g.actions ≠ [] ∧ g.retryable = (classifyError e c).retryable) := by
  simp only [classifyError]
  split_ifs <;>
    simp [errorGuidanceMap, unknownGuidance]

/-! ### Session registry (`src/session-logger.ts`)

The registry is a single JSON file mapping session ids to `SessionData`
records.  It is modelled as an association list (the order and content of
`Object.entries`), wrapped in a state that distinguishes the failure modes
the source's try/catch discriminates: a missing file (`existsSync` false), a
read failure (`readFileSync` throws), and a parse failure (`JSON.parse`
throws).  Timestamps are integers (JS epoch milliseconds), and the stale
cutoff `CONFIG.STALE_SESSION_CUTOFF_MS` (default 900000) is passed as a
parameter because it is environment-overridable. -/

/-- The `status` field of the `SessionData` interface. -/
inductive SessionStatus where
  | starting
  | ready
  | error
  | shutdown
deriving DecidableEq, Repr

/-- The `SessionData` interface of `src/session-logger.ts`. -/
structure SessionData where
  sessionId : String
  claudeInstance : String
  pid : Nat
  startTime : Int
  lastActivity : Int
  projectPath : String
  status : SessionStatus
deriving DecidableEq, Repr

/-- The persisted registry file and its readable/parsable state. -/
inductive RegistryFile where
  | missing
  | unreadable
  | corrupt
  | valid (sessions : List (String × SessionData))
deriving DecidableEq, Repr

/-- The keep test of both `getActiveSessions` and
`cleanupStaleSessionsFromRegistry`: an entry survives when
`now - lastActivity < cutoff`. -/
def keepEntry (now cutoff : Int) (entry : String × SessionData) : Bool :=
  now - entry.2.lastActivity < cutoff

/-- Result of one `cleanupStaleSessionsFromRegistry` call: the returned
eviction count and the registry file as left on disk. -/
structure CleanupResult where
  cleanedCount : Nat
  fileAfter : RegistryFile
deriving DecidableEq, Repr

/-- `cleanupStaleSessionsFromRegistry` of `src/session-logger.ts` (lines
316-348): a missing file returns 0; otherwise the entries are partitioned by
the keep test, the survivors are written back and the eviction count
returned.  Any read, parse or write failure is caught and reported as 0
evictions with the file untouched (`writeOk` injects the write failure). -/
def cleanupStaleSessionsFromRegistry (file : RegistryFile) (writeOk : Bool)
    (now cutoff : Int) : CleanupResult :=
  match file with
  | .missing => ⟨0, .missing⟩
  | .unreadable => ⟨0, .unreadable⟩
  | .corrupt => ⟨0, .corrupt⟩
  | .valid sessions =>
      let activeSessions := sessions.filter (keepEntry now cutoff)
      let cleanedCount := (sessions.filter (fun a => !keepEntry now cutoff a)).length
      if writeOk then ⟨cleanedCount, .valid activeSessions⟩
      else ⟨0, .valid sessions⟩

/-- `getActiveSessions` of `src/session-logger.ts` (lines 282-310): returns
the kept entries of a valid registry and the empty record on a missing,
unreadable or corrupt one.  The second component is the registry file after
the call; the source performs no write, so the file passes through. -/
def getActiveSessions (file : RegistryFile) (now cutoff : Int) :
    List (String × SessionData) × RegistryFile :=
  match file with
  | .missing => ([], .missing)
  | .unreadable => ([], .unreadable)
  | .corrupt => ([], .corrupt)
  | .valid sessions => (sessions.filter (keepEntry now cutoff), .valid sessions)

theorem length_filter_not_add_length_filter (p : α → Bool) (l : List α) :
    (l.filter (fun a => !p a)).length + (l.filter p).length = l.length := by
  induction l with
  | nil => rfl
  | cons a l ih =>
      by_cases h : p a <;> simp [List.filter, h] <;> omega

/-- C7: on a readable registry with a successful write,
`cleanupStaleSessionsFromRegistry` keeps exactly the entries with
`now - lastActivity < cutoff` (so it evicts exactly those with
`now - lastActivity ≥ cutoff`), keeps them unchanged and in order (a sublist
of the original), persists the survivors as structured registry data, and
returns the eviction count; on a missing, unreadable or corrupt file, or a
failing write, it returns 0 and leaves the file as it was. -/
theorem cleanupStale_evicts_exactly_stale (file : RegistryFile) (writeOk : Bool)
    (now cutoff : Int) :
    (∀ sessions, file = .valid sessions → writeOk = true →
      (cleanupStaleSessionsFromRegistry file writeOk now cutoff).fileAfter
          = .valid (sessions.filter (keepEntry now cutoff))
        ∧ (∀ entry ∈ sessions,
            (entry ∈ sessions.filter (keepEntry now cutoff)
              ↔ now - entry.2.lastActivity < cutoff))
        ∧ List.Sublist (sessions.filter (keepEntry now cutoff)) sessions
        ∧ (cleanupStaleSessionsFromRegistry file writeOk now cutoff).cleanedCount
              + (sessions.filter (keepEntry now cutoff)).length
            = sessions.length)
    ∧ ((file = .missing ∨ file = .unreadable ∨ file = .corrupt ∨ writeOk = false) →
        (cleanupStaleSessionsFromRegistry file writeOk now cutoff).cleanedCount = 0
          ∧ (cleanupStaleSessionsFromRegistry file writeOk now cutoff).fileAfter = file) := by
  constructor
  · intro sessions hfile hw
    subst hfile
    subst hw
    refine ⟨by simp [cleanupStaleSessionsFromRegistry], ?_, List.filter_sublist _, ?_⟩
    · intro entry hmem
      simp [List.mem_filter, hmem, keepEntry]
    · simp only [cleanupStaleSessionsFromRegistry, if_true]
      exact length_filter_not_add_length_filter _ _
  · intro h
    rcases h with h | h | h | h
    · subst h; exact ⟨rfl, rfl⟩
    · subst h; exact ⟨rfl, rfl⟩
    · subst h; exact ⟨rfl, rfl⟩
    · subst h
      cases file with
      | missing => exact ⟨rfl, rfl⟩
      | unreadable => exact ⟨rfl, rfl⟩
      | corrupt => exact ⟨rfl, rfl⟩
      | valid sessions => simp [cleanupStaleSessionsFromRegistry]

/-- A registry entry that is still fresh at time 1000000 with cutoff 900000. -/
def freshSession : SessionData :=
  { sessionId := "amazon-q-fresh", claudeInstance := "claude-100", pid := 100
    startTime := 400000, lastActivity := 500000, projectPath := "/work/a"
    status := .ready }

/-- A registry entry that is stale at time 1000000 with cutoff 900000. -/
def staleSession : SessionData :=
  { sessionId := "amazon-q-stale", claudeInstance := "claude-200", pid := 200
    startTime := 0, lastActivity := 0, projectPath := "/work/b"
    status := .ready }

/-- A two-entry registry with one fresh and one stale session. -/
def sampleRegistry : List (String × SessionData) :=
  [("amazon-q-fresh", freshSession), ("amazon-q-stale", staleSession)]

theorem cleanupStale_evicts_exactly_stale_witness :
    (RegistryFile.valid sampleRegistry = RegistryFile.valid sampleRegistry
      ∧ (true : Bool) = true
      ∧ (cleanupStaleSessionsFromRegistry (.valid sampleRegistry) true 1000000 900000).cleanedCount
          = 1)
    ∧ ((cleanupStaleSessionsFromRegistry (.valid sampleRegistry) true 1000000 900000).fileAfter
          = .valid (sampleRegistry.filter (keepEntry 1000000 900000))
        ∧ (∀ entry ∈ sampleRegistry,
            (entry ∈ sampleRegistry.filter (keepEntry 1000000 900000)
              ↔ (1000000 : Int) - entry.2.lastActivity < 900000))
        ∧ List.Sublist (sampleRegistry.filter (keepEntry 1000000 900000)) sampleRegistry
        ∧ (cleanupStaleSessionsFromRegistry (.valid sampleRegistry) true 1000000 900000).cleanedCount
              + (sampleRegistry.filter (keepEntry 1000000 900000)).length
            = sampleRegistry.length) :=
  ⟨⟨rfl, rfl, by decide⟩,
   (cleanupStale_evicts_exactly_stale (.valid sampleRegistry) true 1000000 900000).1
     sampleRegistry rfl rfl⟩

/-- C10: `getActiveSessions` is read-only with respect to the registry — the
file after the call is exactly the file before it, including any stale
entries — while the returned record contains exactly the entries with
`now - lastActivity < cutoff`, and is empty on a missing, unreadable or
corrupt registry. -/
theorem getActiveSessions_readonly (file : RegistryFile) (now cutoff : Int) :
    (getActiveSessions file now cutoff).2 = file
    ∧ (∀ sessions, file = .valid sessions →
        (getActiveSessions file now cutoff).1 = sessions.filter (keepEntry now cutoff)
        ∧ ∀ entry ∈ sessions,
            (entry ∈ (getActiveSessions file now cutoff).1
              ↔ now - entry.2.lastActivity < cutoff))
    ∧ ((file = .missing ∨ file = .unreadable ∨ file = .corrupt) →
        (getActiveSessions file now cutoff).1 = []) := by
  refine ⟨?_, ?_, ?_⟩
  · cases file <;> rfl
  · intro sessions hfile
    subst hfile
    refine ⟨rfl, ?_⟩
    intro entry hmem
    simp [getActiveSessions, List.mem_filter, hmem, keepEntry]
  · intro h
    rcases h with h | h | h <;> subst h <;> rfl

theorem getActiveSessions_readonly_witness :
    (RegistryFile.valid sampleRegistry = RegistryFile.valid sampleRegistry)
    ∧ (getActiveSessions (.valid sampleRegistry) 1000000 900000).2
        = RegistryFile.valid sampleRegistry
    ∧ ((getActiveSessions (.valid sampleRegistry) 1000000 900000).1
          = sampleRegistry.filter (keepEntry 1000000 900000)
        ∧ ∀ entry ∈ sampleRegistry,
            (entry ∈ (getActiveSessions (.valid sampleRegistry) 1000000 900000).1
              ↔ (1000000 : Int) - entry.2.lastActivity < 900000)) :=
  ⟨rfl,
   (getActiveSessions_readonly (.valid sampleRegistry) 1000000 900000).1,
   (getActiveSessions_readonly (.valid sampleRegistry) 1000000 900000).2.1
     sampleRegistry rfl⟩

/-! ### Tool-call request handler (server.ts 779-834) and `formatErrorResponse`
(server.ts 1066-1091)

The `CallToolRequestSchema` handler dispatches on the tool name inside a
try/catch.  Anything thrown by a tool handler is caught: an `MCPError` is
formatted directly, anything else is first classified with the tool name as
context.  Dispatch outcomes are modelled as `Except Thrown ToolResponse`.
`formatErrorResponse` also builds an `errorInfo` object (carrying a wall
clock timestamp and the request id) that is never returned; it is not
modelled.  The JS `||` fallbacks on the optional guidance treat an empty
string as absent. -/

/-- One `{ type, text }` element of a response's `content` array. -/
structure ContentItem where
  type : String
  text : String
deriving DecidableEq, Repr

/-- The response object returned to the RPC layer. -/
structure ToolResponse where
  content : List ContentItem
deriving DecidableEq, Repr

/-- A value thrown by a tool handler: either an already-classified `MCPError`
or any other error (to be classified). -/
inductive Thrown where
  | mcp (e : MCPError)
  | raw (e : RawError)
deriving DecidableEq, Repr

/-- JS string interpolation of an `ErrorType` enum member (the enum's string
values). -/
def errorTypeString : ErrorType → String
  | .NETWORK_ERROR => "NETWORK_ERROR"
  | .AUTHENTICATION_ERROR => "AUTHENTICATION_ERROR"
  | .SERVICE_CAPACITY_ERROR => "SERVICE_CAPACITY_ERROR"
  | .CONFIGURATION_ERROR => "CONFIGURATION_ERROR"
  | .VALIDATION_ERROR => "VALIDATION_ERROR"
  | .Q_CLI_NOT_FOUND => "Q_CLI_NOT_FOUND"
  | .UNKNOWN_ERROR => "UNKNOWN_ERROR"

/-- `error.guidance?.message || 'Error'`. -/
def guidanceMessageOf : Option ErrorGuidance → String
  | some g => if g.message = "" then "Error" else g.message
  | none => "Error"

/-- `error.guidance?.actions.map(a => '• ' + a).join('\n') || '• Contact
support'`. -/
def actionsBlockOf : Option ErrorGuidance → String
  | some g =>
      let joined := String.intercalate "\n" (g.actions.map (fun a => "• " ++ a))
      if joined = "" then "• Contact support" else joined
  | none => "• Contact support"

/-- `formatErrorResponse` of `src/server.ts` (lines 1066-1091): renders the
classified error as a single text content block carrying the guidance
headline, error type, code, retryable flag, recommended actions and the raw
message. -/
def formatErrorResponse (error : MCPError) (_requestId : String) : ToolResponse :=
  { content :=
      [{ type := "text"
         text :=
           "❌ **" ++ guidanceMessageOf error.guidance ++ "**\n\n"
             ++ "**Error Type:** " ++ errorTypeString error.type ++ "\n"
             ++ "**Code:** " ++ error.code ++ "\n"
             ++ "**Retryable:** " ++ (if error.retryable then "Yes" else "No") ++ "\n\n"
             ++ "**Recommended Actions:**\n" ++ actionsBlockOf error.guidance
             ++ "\n\n**Technical Details:**\n```\n" ++ error.message ++ "\n```" }] }

/-- The catch logic of the `CallToolRequestSchema` handler (server.ts
779-834), as a function of the dispatch outcome: a total function into
`ToolResponse`, so no exception reaches the RPC layer. -/
def handleCallTool (outcome : Except Thrown ToolResponse)
    (toolName : String) (requestId : String) : ToolResponse :=
  match outcome with
  | .ok r => r
  | .error (.mcp e) => formatErrorResponse e requestId
  | .error (.raw e) => formatErrorResponse (classifyError e toolName) requestId

/-- `sub` occurs as a contiguous substring of `t`. -/
def containsSub (t sub : String) : Prop :=
  sub.data <:+: t.data

theorem data_append (s t : String) : (s ++ t).data = s.data ++ t.data := by
  cases s
  cases t
  rfl

theorem containsSub_refl (s : String) : containsSub s s :=
  ⟨[], [], by simp⟩

theorem containsSub_app_right {t sub : String} (h : containsSub t sub)
    (u : String) : containsSub (t ++ u) sub := by
  obtain ⟨a, b, hab⟩ := h
  exact ⟨a, b ++ u.data, by rw [data_append, ← hab]; simp⟩

theorem containsSub_app_left {t sub : String} (u : String)
    (h : containsSub t sub) : containsSub (u ++ t) sub := by
  obtain ⟨a, b, hab⟩ := h
  exact ⟨u.data ++ a, b, by rw [data_append, ← hab]; simp⟩

/-- C8: the tool-call handler returns a plain response for every dispatch
outcome — successes pass through, a thrown `MCPError` is rendered directly by
`formatErrorResponse`, and any other thrown error is classified first — and
the rendered error text carries the error type, code, retryable flag,
rendered guidance actions and the raw message. -/
theorem handleCallTool_catches_and_formats :
    (∀ (r : ToolResponse) (tn rid : String), handleCallTool (.ok r) tn rid = r)
    ∧ (∀ (m : MCPError) (tn rid : String),
        handleCallTool (.error (.mcp m)) tn rid = formatErrorResponse m rid)
    ∧ (∀ (e : RawError) (tn rid : String),
        handleCallTool (.error (.raw e)) tn rid
          = formatErrorResponse (classifyError e tn) rid)
    ∧ ∀ (m : MCPError) (rid : String),
        ∃ item, (formatErrorResponse m rid).content = [item]
          ∧ item.type = "text"
          ∧ containsSub item.text (errorTypeString m.type)
          ∧ containsSub item.text m.code
          ∧ containsSub item.text (if m.retryable then "Yes" else "No")
          ∧ containsSub item.text (actionsBlockOf m.guidance)
          ∧ containsSub item.text m.message := by
  refine ⟨fun r tn rid => rfl, fun m tn rid => rfl, fun e tn rid => rfl, ?_⟩
  intro m rid
  refine ⟨_, rfl, rfl, ?_, ?_, ?_, ?_, ?_⟩
  · iterate 12 apply containsSub_app_right
    apply containsSub_app_left
    exact containsSub_refl _
  · iterate 9 apply containsSub_app_right
    apply containsSub_app_left
    exact containsSub_refl _
  · iterate 6 apply containsSub_app_right
    apply containsSub_app_left
    exact containsSub_refl _
  · iterate 3 apply containsSub_app_right
    apply containsSub_app_left
    exact containsSub_refl _
  · iterate 1 apply containsSub_app_right
    apply containsSub_app_left
    exact containsSub_refl _

end AmazonQMcp
